import Mathlib

/-!
Verification of the retrieval-and-policy-gated dialogue core of the
ILORA Retreats concierge service (`services/qa_agent_new.py`,
`main_new.py`, `main.py`).

The Python code is shallowly embedded: guest records and sheet rows are
association lists of string key/value pairs (Python dicts of strings),
Python floats are modelled as rationals, the LLM completion capability is
an explicit function argument returning `Except Unit String`, and the
wall clock (`time.time()`, `datetime.utcnow()`) is passed in explicitly.
-/

/-! ## Python string primitives -/

/-- The characters Python's `str.strip()` / regex `\s` treat as whitespace
(ASCII range, which is all the code relies on). -/
def isPySpace (c : Char) : Bool :=
  c = ' ' || c = '\t' || c = '\n' || c = '\r' || c = '\x0b' || c = '\x0c'

/-- `str.lower()` (ASCII case mapping, the only case the sheets use). -/
def pyLower (s : String) : String :=
  String.mk (s.data.map Char.toLower)

/-- `str.strip()`: drop leading and trailing whitespace. -/
def pyStrip (s : String) : String :=
  String.mk (((s.data.dropWhile isPySpace).reverse.dropWhile isPySpace).reverse)

/-- `pat in s` for Python strings: `listStartsWith p s` is "p is a prefix of s". -/
def listStartsWith : List Char → List Char → Bool
  | [], _ => true
  | _ :: _, [] => false
  | p :: ps, c :: cs => p = c && listStartsWith ps cs

/-- Substring occurrence over character lists (helper for `pyContains`). -/
def listOccurs (pat : List Char) : List Char → Bool
  | [] => pat.isEmpty
  | c :: cs => listStartsWith pat (c :: cs) || listOccurs pat cs

/-- Python's substring test `pat in s`. -/
def pyContains (pat s : String) : Bool :=
  listOccurs pat.data s.data

/-- Lower-case ASCII letter or digit: the class `[a-z0-9]` of `_normalize_text`. -/
def isLowerAlnum (c : Char) : Bool :=
  ('a' ≤ c && c ≤ 'z') || ('0' ≤ c && c ≤ '9')

/-- One pass of `re.sub(r"\s+", " ", s)`: every maximal whitespace run becomes
a single space.  The flag records whether we are inside a run. -/
def squeezeWsAux : Bool → List Char → List Char
  | _, [] => []
  | inRun, c :: cs =>
    if isPySpace c then
      (if inRun then squeezeWsAux true cs else ' ' :: squeezeWsAux true cs)
    else c :: squeezeWsAux false cs

/-- Drop leading and trailing plain spaces (all that remain after squeezing). -/
def trimSpaces (l : List Char) : List Char :=
  ((l.dropWhile (fun c => c = ' ')).reverse.dropWhile (fun c => c = ' ')).reverse

/-- `_normalize_text` (qa_agent_new.py, lines 16-22): lower-case, replace every
character outside `[a-z0-9\s]` by a space, collapse whitespace runs, strip. -/
def normalizeText (s : String) : String :=
  if s = "" then ""
  else
    let lowered := s.data.map Char.toLower
    let replaced := lowered.map (fun c => if isLowerAlnum c || isPySpace c then c else ' ')
    String.mk (trimSpaces (squeezeWsAux false replaced))

/-- Python `str.split()` with no argument: whitespace-separated words, no empties. -/
def wordsAux : List Char → List Char → List String
  | acc, [] => if acc.isEmpty then [] else [String.mk acc.reverse]
  | acc, c :: cs =>
    if isPySpace c then
      (if acc.isEmpty then wordsAux [] cs else String.mk acc.reverse :: wordsAux [] cs)
    else wordsAux (c :: acc) cs

/-- Python `s.split()`. -/
def pyWords (s : String) : List String :=
  wordsAux [] s.data

/-! ## Sheet rows (Python dicts of strings) -/

/-- A sheet row / guest record: a Python dict with string keys and values. -/
abbrev Row := List (String × String)

/-- `row.get(k)`: `none` models Python's `None` for a missing key. -/
def rget (row : Row) (k : String) : Option String :=
  (row.find? (fun p => p.1 == k)).map (fun p => p.2)

/-- `row.get(k, d)`. -/
def rgetD (row : Row) (k d : String) : String :=
  (rget row k).getD d

/-- Python's `a or b or ... or ""` over dict lookups: the first value that is
truthy (present and non-empty), else `""`.  Also models `str(x or "")`. -/
def firstTruthy : List (Option String) → String
  | [] => ""
  | some v :: rest => if v = "" then firstTruthy rest else v
  | none :: rest => firstTruthy rest

/-! ## Policy evaluator (`_is_user_booked`, `_is_id_verified`) -/

/-- The placeholder strings of `_is_user_booked` (lines 207 and 213), exactly
as the source lists them. -/
def placeholders : List String := ["-", "none", "", "n/a"]

/-- The workflow-stage value of `_is_user_booked` (lines 195-198): the falsy-or
chain over the four header spellings, stripped and lowered. -/
def wfStage (row : Row) : String :=
  pyLower (pyStrip (firstTruthy
    [rget row "Workfow Stage", rget row "Workflow Stage",
     rget row "WorkFlow", rget row "Workfow"]))

/-- `str(client_row.get("Booking Id") or "").strip()` (line 206; not lowered). -/
def bookingIdField (row : Row) : String :=
  pyStrip (firstTruthy [rget row "Booking Id"])

/-- `str(client_row.get("Room Alloted") or "").strip()` (line 212; not lowered). -/
def roomField (row : Row) : String :=
  pyStrip (firstTruthy [rget row "Room Alloted"])

/-- `ConciergeBot._is_user_booked` (qa_agent_new.py, lines 187-218). -/
def isUserBooked (row : Row) : Bool :=
  if row.isEmpty then false
  else if wfStage row = "confirmed" then true
  else if bookingIdField row ≠ "" ∧ bookingIdField row ∉ placeholders then true
  else if roomField row ≠ "" ∧ roomField row ∉ placeholders then true
  else false

/-- `ConciergeBot._is_id_verified` (qa_agent_new.py, lines 220-234). -/
def isIdVerified (row : Row) : Bool :=
  match rget row "Id Link" with
  | none => false
  | some v =>
    if v = "" then false
    else
      let s := pyLower (pyStrip v)
      if s = "done" ∨ pyContains "http" s then true else false

/-- The policy evaluation of `ask` (qa_agent_new.py, lines 287-293): both
flags default to false when no record was resolved. -/
def policyEval (clientRow : Option Row) : Bool × Bool :=
  match clientRow with
  | some row => (isUserBooked row, isIdVerified row)
  | none => (false, false)

/-- `is_booked` exactly as claim C3 words it: stage "confirmed"
case-insensitively, or a non-empty booking id that is not a placeholder
*compared case-insensitively*, or such a room value. -/
def specIsBookedClaim (row : Row) : Bool :=
  decide (wfStage row = "confirmed" ∨
    (bookingIdField row ≠ "" ∧ pyLower (bookingIdField row) ∉ placeholders) ∨
    (roomField row ≠ "" ∧ pyLower (roomField row) ∉ placeholders))

/-- `is_booked` as amended: as the code has it, the stripped booking-id and
room values are compared to the placeholder list *case-sensitively* (so
"None", "N/A" or "NONE" count as a real booking id or room). -/
def specIsBookedAmended (row : Row) : Bool :=
  decide (wfStage row = "confirmed" ∨
    (bookingIdField row ≠ "" ∧ bookingIdField row ∉ placeholders) ∨
    (roomField row ≠ "" ∧ roomField row ∉ placeholders))

/-- `is_verified` as claim C3 words it: the identity-proof value, trimmed and
lowercased, equals "done" or contains "http". -/
def specIsVerifiedClaim (row : Row) : Bool :=
  let s := pyLower (pyStrip (rgetD row "Id Link" ""))
  s == "done" || pyContains "http" s

/-! ## Identity resolver (`_find_client_row`) -/

/-- The per-row test of the loop body of `_find_client_row` (lines 176-184):
the email check, then the guarded client-id / booking-id / name checks. -/
def clientRowMatch (iid : String) (row : Row) : Bool :=
  pyLower (pyStrip (rgetD row "Email" "")) == iid ||
  (decide (iid ≠ "") &&
    (iid == pyLower (pyStrip (firstTruthy [rget row "Client Id"])) ||
     iid == pyLower (pyStrip (firstTruthy [rget row "Booking Id"])) ||
     iid == pyLower (pyStrip (firstTruthy [rget row "Name"]))))

/-- The `for row in self.client_rows` loop of `_find_client_row`. -/
def findRowLoop (iid : String) : List Row → Option Row
  | [] => none
  | row :: rest => if clientRowMatch iid row then some row else findRowLoop iid rest

/-- `ConciergeBot._find_client_row` (qa_agent_new.py, lines 171-185). -/
def findClientRow (rows : List Row) (identifier : String) : Option Row :=
  if identifier = "" ∨ rows = [] then none
  else findRowLoop (pyLower (pyStrip identifier)) rows

/-! ## History key (`_get_chat_history_key`) -/

/-- The tail of `_get_chat_history_key`: the caller-supplied identifier branch
and the time-based session fallback (`int(time.time())` passed as `now`). -/
def anonKey (userIdentifier : Option String) (now : Nat) : String :=
  match userIdentifier with
  | some idf => if idf ≠ "" then "user_" ++ idf else "session_" ++ toString now
  | none => "session_" ++ toString now

/-- `ConciergeBot._get_chat_history_key` (qa_agent_new.py, lines 152-169). -/
def getChatHistoryKey (clientRow : Option Row) (userIdentifier : Option String)
    (now : Nat) : String :=
  match clientRow with
  | some row =>
    if rgetD row "Email" "" ≠ "" then rgetD row "Email" ""
    else if rgetD row "Client Id" "" ≠ "" then rgetD row "Client Id" ""
    else anonKey userIdentifier now
  | none => anonKey userIdentifier now

/-! ## difflib.SequenceMatcher (CPython, `isjunk=None`)

`_score_doc` calls `difflib.SequenceMatcher(None, query_norm, doc_norm).ratio()`.
The algorithm is embedded as CPython implements it: the `b2j` index (with the
autojunk exclusion of popular elements of `b` when `len(b) >= 200`), the
`find_longest_match` dynamic program with its non-junk extension loops (the
junk extension loops never fire with `isjunk=None`), the recursive block
decomposition behind `get_matching_blocks`, and
`ratio = 2 * matches / (len(a) + len(b))` with the empty-total case 1.0. -/

/-- A `(besti, bestj, bestsize)` triple of `find_longest_match`. -/
structure BestRec where
  besti : Nat
  bestj : Nat
  bestk : Nat
deriving Repr, DecidableEq

/-- The autojunk "popular" elements of `b`: when `len(b) >= 200`, elements
occurring more than `len(b) // 100 + 1` times. -/
def popularChars (b : List Char) : List Char :=
  if 200 ≤ b.length then b.dedup.filter (fun c => b.length / 100 + 1 < b.count c)
  else []

/-- `self.b2j[c]`: ascending indices of `c` in `b`, popular elements excluded. -/
def b2j (b : List Char) (c : Char) : List Nat :=
  if c ∈ popularChars b then []
  else (List.range b.length).filter (fun j => b.get? j == some c)

/-- `a[i] == b[j]` with both indices in range. -/
def chEq (a b : List Char) (i j : Nat) : Bool :=
  match a.get? i, b.get? j with
  | some x, some y => x == y
  | _, _ => false

/-- The inner `for j in b2j.get(a[i], nothing)` loop of `find_longest_match`:
reads the previous row `j2old`, builds the new row, tracks the best block
(`k > bestsize` updates, so earliest maximal block wins). -/
def flmInner (j2old : Nat → Nat) (i : Nat) :
    List Nat → (Nat → Nat) × BestRec → (Nat → Nat) × BestRec
  | [], st => st
  | j :: js, (j2new, best) =>
    let k := if j = 0 then 1 else j2old (j - 1) + 1
    let j2new' := fun x => if x = j then k else j2new x
    let best' : BestRec := if best.bestk < k then ⟨i + 1 - k, j + 1 - k, k⟩ else best
    flmInner j2old i js (j2new', best')

/-- The outer `for i in range(alo, ahi)` loop of `find_longest_match`; the
`j < blo` continue and `j >= bhi` break become a filter on the ascending list. -/
def flmOuter (a b : List Char) (blo bhi : Nat) :
    List Nat → (Nat → Nat) × BestRec → (Nat → Nat) × BestRec
  | [], st => st
  | i :: rest, (j2old, best) =>
    let js := (b2j b (a.getD i ' ')).filter (fun j => decide (blo ≤ j) && decide (j < bhi))
    let st' := flmInner j2old i js ((fun _ => 0), best)
    flmOuter a b blo bhi rest st'

/-- The left extension loop (`while besti > alo and bestj > blo and ... a[besti-1]
== b[bestj-1]`); fuel bounds the iteration count by the starting `besti`. -/
def extendLeft (a b : List Char) (alo blo : Nat) : Nat → BestRec → BestRec
  | 0, best => best
  | fuel + 1, best =>
    if alo < best.besti ∧ blo < best.bestj ∧
        chEq a b (best.besti - 1) (best.bestj - 1) then
      extendLeft a b alo blo fuel ⟨best.besti - 1, best.bestj - 1, best.bestk + 1⟩
    else best

/-- The right extension loop (`while besti+bestsize < ahi and ...`). -/
def extendRight (a b : List Char) (ahi bhi : Nat) : Nat → BestRec → BestRec
  | 0, best => best
  | fuel + 1, best =>
    if best.besti + best.bestk < ahi ∧ best.bestj + best.bestk < bhi ∧
        chEq a b (best.besti + best.bestk) (best.bestj + best.bestk) then
      extendRight a b ahi bhi fuel ⟨best.besti, best.bestj, best.bestk + 1⟩
    else best

/-- `SequenceMatcher.find_longest_match(alo, ahi, blo, bhi)`. -/
def findLongestMatch (a b : List Char) (alo ahi blo bhi : Nat) : BestRec :=
  let st := flmOuter a b blo bhi (List.range' alo (ahi - alo)) ((fun _ => 0), ⟨alo, blo, 0⟩)
  extendRight a b ahi bhi ahi (extendLeft a b alo blo st.2.besti st.2)

/-- The recursive decomposition behind `get_matching_blocks`: the longest
block, then the blocks to its left and right.  The fuel `la + lb + 1`
dominates the recursion depth, since each level strictly shrinks the ranges. -/
def matchingBlocksAux (a b : List Char) : Nat → Nat → Nat → Nat → Nat → List BestRec
  | 0, _, _, _, _ => []
  | fuel + 1, alo, ahi, blo, bhi =>
    let m := findLongestMatch a b alo ahi blo bhi
    if m.bestk = 0 then []
    else
      matchingBlocksAux a b fuel alo m.besti blo m.bestj ++
        m :: matchingBlocksAux a b fuel (m.besti + m.bestk) ahi (m.bestj + m.bestk) bhi

/-- `sum(size for (_, _, size) in self.get_matching_blocks())`. -/
def matchTotal (a b : List Char) : Nat :=
  ((matchingBlocksAux a b (a.length + b.length + 1) 0 a.length 0 b.length).map
    (fun m => m.bestk)).sum

/-- `SequenceMatcher(None, a, b).ratio()`: `2 * matches / (len(a) + len(b))`,
and 1.0 when both sequences are empty (`_calculate_ratio`). -/
def seqSim (a b : String) : ℚ :=
  if a.data.length + b.data.length = 0 then 1
  else (2 * matchTotal a.data b.data : ℚ) / ((a.data.length : ℚ) + (b.data.length : ℚ))

/-! ## Tabular-backend scorer (`_score_doc`) -/

/-- `ConciergeBot._score_doc` (qa_agent_new.py, lines 386-411): the guard on
falsy inputs, normalization, the token-set guard, and the hybrid score
`0.65 * overlap + 0.35 * ratio` (floats modelled as rationals). -/
def scoreDoc (docText query : String) : ℚ :=
  if query = "" ∨ docText = "" then 0
  else
    let queryNorm := normalizeText query
    let docNorm := normalizeText docText
    let queryTokens := (pyWords queryNorm).toFinset
    let docTokens := (pyWords docNorm).toFinset
    if queryTokens = ∅ ∨ docTokens = ∅ then 0
    else
      let overlap : ℚ :=
        ((queryTokens ∩ docTokens).card : ℚ) / (min queryTokens.card docTokens.card : ℚ)
      65 / 100 * overlap + 35 / 100 * seqSim queryNorm docNorm

/-- The score exactly as claim C4 words it: `0.65` times the token-set overlap
(defined as 0 when either token set is empty) plus `0.35` times the
sequence-similarity ratio of the two normalized texts, for every input. -/
def specScoreClaim (docText query : String) : ℚ :=
  let qn := normalizeText query
  let dn := normalizeText docText
  let qt := (pyWords qn).toFinset
  let dt := (pyWords dn).toFinset
  let overlap : ℚ :=
    if qt = ∅ ∨ dt = ∅ then 0 else ((qt ∩ dt).card : ℚ) / (min qt.card dt.card : ℚ)
  65 / 100 * overlap + 35 / 100 * seqSim qn dn

/-- Claim C4 as amended: the hybrid formula applies when both inputs are
non-empty and both normalized token sets are non-empty; otherwise the score
is 0 (in particular it is 0, not 0.35, when both texts normalize to ""). -/
def specScoreAmended (docText query : String) : ℚ :=
  if query = "" ∨ docText = "" ∨ (pyWords (normalizeText query)).toFinset = ∅ ∨
      (pyWords (normalizeText docText)).toFinset = ∅ then 0
  else specScoreClaim docText query

/-! ## Conversation state -/

/-- One entry of a per-key chat history: `{"role": ..., "text": ..., "timestamp": ...}`. -/
structure Turn where
  role : String
  text : String
  ts : String
deriving Repr, DecidableEq

/-- The mutable state of a `ConciergeBot` that the embedded operations read
and write: the chat-history dict and the cached sheet data.  `agentName`
models the `data/agents.json` lookup of `_build_prompt` (default
"AI Assistant"); the sheet caches are refreshed wholesale from the network
in the source, so a turn sees them as one immutable snapshot. -/
structure BotState where
  chatHistory : List (String × List Turn)
  qnaRows : List Row
  dosDonts : List Row
  campaigns : List Row
  menu : List Row
  clientRows : List Row
  retrieverK : Nat
  agentName : String
deriving Repr, DecidableEq

/-- `self.chat_history.get(key)` on the history dict. -/
def histLookup (h : List (String × List Turn)) (key : String) : Option (List Turn) :=
  (h.find? (fun p => p.1 == key)).map (fun p => p.2)

/-- `self.chat_history[key] = v` (update in place, or insert at the end). -/
def histSet (h : List (String × List Turn)) (key : String) (v : List Turn) :
    List (String × List Turn) :=
  if (h.find? (fun p => p.1 == key)).isSome then
    h.map (fun p => if p.1 == key then (key, v) else p)
  else h ++ [(key, v)]

/-- Python `l[-n:]`. -/
def lastN (n : Nat) (l : List Turn) : List Turn :=
  l.drop (l.length - n)

/-! ## Sheet retrieval (`_row_to_doc_text`, `_retrieve_from_sheets`) -/

/-- The `for key in [...]: if row.get(key): ... break` scan of
`_row_to_doc_text`: the first key with a truthy value. -/
def firstKeyVal (row : Row) : List String → Option String
  | [] => none
  | k :: rest =>
    match rget row k with
    | some v => if v = "" then firstKeyVal row rest else some v
    | none => firstKeyVal row rest

/-- `ConciergeBot._row_to_doc_text` (qa_agent_new.py, lines 362-384). -/
def rowToDocText (row : Row) : String :=
  let qPart := (firstKeyVal row ["question", "q", "query", "prompt"]).map (fun v => "Q: " ++ v)
  let aPart := (firstKeyVal row ["answer", "a", "response", "reply"]).map (fun v => "A: " ++ v)
  let parts := [qPart, aPart].filterMap id
  let parts :=
    if parts.isEmpty then
      let joined := String.intercalate " | " ((row.map (fun p => p.2)).filter (fun v => v != ""))
      if joined = "" then [] else [joined]
    else parts
  String.intercalate "\n" parts

/-- One `(score, doc_text, row)` entry of `_retrieve_from_sheets`. -/
abbrev Scored := ℚ × String × Row

/-- The scored list built in original row order (lines 347-351). -/
def scoredList (rows : List Row) (query : String) : List Scored :=
  rows.map (fun row => (scoreDoc (rowToDocText row) query, rowToDocText row, row))

/-- Stable descending insertion: an element goes before the first entry whose
score is at most its own, so earlier rows stay ahead of equal-scored later
rows — the semantics of CPython's stable `list.sort(key=score, reverse=True)`. -/
def insertDesc (x : Scored) : List Scored → List Scored
  | [] => [x]
  | h :: t => if h.1 ≤ x.1 then x :: h :: t else h :: insertDesc x t

/-- Stable sort, descending by score (`scored_results.sort(key=..., reverse=True)`). -/
def sortDescScored : List Scored → List Scored
  | [] => []
  | x :: xs => insertDesc x (sortDescScored xs)

/-- A retrieved passage dict `{"page_content", "score", "metadata"}`. -/
structure Passage where
  pageContent : String
  score : ℚ
  metadata : Row
deriving Repr, DecidableEq

/-- `ConciergeBot._retrieve_from_sheets` (qa_agent_new.py, lines 341-360).
`k = k or self.retriever_k`: a missing or zero `k` falls back to the default. -/
def retrieveFromSheets (st : BotState) (query : String) (k : Option Nat) : List Passage :=
  let kk := match k with
    | some n => if n = 0 then st.retrieverK else n
    | none => st.retrieverK
  if st.qnaRows.isEmpty then []
  else
    let sorted := sortDescScored (scoredList st.qnaRows query)
    (sorted.take kk).map (fun x => ⟨x.2.1, x.1, x.2.2⟩)

/-! ## Prompt composer (`_build_prompt`) -/

/-- The communication-rules block (lines 429-438). -/
def rulesText (dosDonts : List Row) : String :=
  if dosDonts.isEmpty then ""
  else
    "\n\n📋 **Important Communication Rules:**\n" ++
    String.join (dosDonts.map (fun e =>
      let d := pyStrip (firstTruthy [rget e "do"])
      let dn := pyStrip (firstTruthy [rget e "dont"])
      (if d ≠ "" then "- ✅ Do: " ++ d ++ "\n" else "") ++
      (if dn ≠ "" then "- ❌ Don't: " ++ dn ++ "\n" else "")))

/-- The campaigns block (lines 440-448), only built when the list is non-empty
and the guest is booked and verified; at most 5 campaigns are listed. -/
def campaignsText (campaigns : List Row) (isBooked isVerified : Bool) : String :=
  if !campaigns.isEmpty && (isBooked && isVerified) then
    "\n\n📣 **Active Campaigns / Promos:**\n" ++
    String.join ((campaigns.take 5).map (fun c =>
      let title := firstTruthy [rget c "Name", rget c "Title"]
      let desc := firstTruthy [rget c "Description", rget c "Desc"]
      if title ≠ "" ∨ desc ≠ "" then
        "- " ++ title ++ " " ++ (if desc ≠ "" then "- " ++ desc else "") ++ "\n"
      else ""))
  else ""

/-- The menu block (lines 450-459), same policy gate. -/
def menuText (menu : List Row) (isBooked isVerified : Bool) : String :=
  if !menu.isEmpty && (isBooked && isVerified) then
    "\n\n📋 **Menu / Services:**\n" ++
    String.join (menu.map (fun item =>
      let type_ := firstTruthy [rget item "Type"]
      let name := firstTruthy [rget item "Item"]
      let price := firstTruthy [rget item "Price"]
      let desc := firstTruthy [rget item "Description"]
      "- " ++ type_ ++ " " ++ name ++ " " ++
        (if price ≠ "" then "- " ++ price else "") ++ " " ++
        (if desc ≠ "" then "- " ++ desc else "") ++ "\n"))
  else ""

/-- The recent-history block of `_build_prompt` (lines 461-466): present only
for a truthy session id that has a history entry; last 5 turns. -/
def chatHistText (hist : List (String × List Turn)) (sessionId : Option String) : String :=
  match sessionId with
  | none => ""
  | some sid =>
    if sid = "" then ""
    else
      match histLookup hist sid with
      | none => ""
      | some turns =>
        "\nPrevious conversation context:\n" ++
        String.join ((lastN 5 turns).map (fun m =>
          (if m.role == "user" then "User" else "Assistant") ++ ": " ++ m.text ++ "\n"))

/-- The literal gating sentence of the not-booked-or-not-verified branch. -/
def gateFraming : String :=
  "For in-room services, spa bookings, or amenity access, politely explain that a confirmed booking and ID verification are required.\n\n"

/-- `ConciergeBot._build_prompt` (qa_agent_new.py, lines 413-491). -/
def buildPrompt (st : BotState) (hotelData query : String) (sessionId : Option String)
    (isBooked isVerified : Bool) : String :=
  let rules := rulesText st.dosDonts
  let ctext := campaignsText st.campaigns isBooked isVerified
  let mtext := menuText st.menu isBooked isVerified
  let chatText := chatHistText st.chatHistory sessionId
  if !isBooked || !isVerified then
    "You are an AI agent named " ++ st.agentName ++
      ", a knowledgeable and polite concierge assistant at ILORA RETREATS. " ++
      gateFraming ++
      "Status: " ++ (if !isBooked then "Not Booked" else "Booked but ID Not Verified") ++
      "\n\n" ++
      "Hotel Data:\n" ++ hotelData ++ "\n\n" ++
      chatText ++ "\n" ++
      "Guest Query: " ++ query ++ "\n" ++
      rules
  else
    "You are an AI agent named " ++ st.agentName ++
      ", a knowledgeable and polite concierge assistant at ILORA RETREATS. " ++
      "Handle all in-room service requests directly and create service tickets for guest requests.\n\n" ++
      "Hotel Data:\n" ++ hotelData ++ "\n\n" ++
      mtext ++ "\n\n" ++
      chatText ++ "\n" ++
      "Guest Query: " ++ query ++ "\n" ++
      rules ++ ctext

/-! ## The dialogue turn (`ask`) -/

/-- The fixed apology of the exception handler of `ask` (line 339). -/
def apologyText : String :=
  "I apologize, but I encountered an issue while processing your request. Please try again or contact our front desk for assistance."

/-- The client-row resolution at the top of `ask` (lines 247-250): only a
truthy identifier is looked up. -/
def askClientRow (st : BotState) (userIdentifier : Option String) : Option Row :=
  match userIdentifier with
  | some idf => if idf = "" then none else findClientRow st.clientRows idf
  | none => none

/-- The history key of a turn (`ask`, lines 252-253). -/
def askKey (st : BotState) (userIdentifier : Option String) (now : Nat) : String :=
  getChatHistoryKey (askClientRow st userIdentifier) userIdentifier now

/-- The state after the user turn is appended (`ask`, lines 255-265): the
key's history is created if missing and the user message pushed at its end. -/
def askStateAfterUser (st : BotState) (query : String) (userIdentifier : Option String)
    (now : Nat) (nowIso : String) : BotState :=
  let key := askKey st userIdentifier now
  let h1 := ((histLookup st.chatHistory key).getD []) ++ [⟨"user", query, nowIso⟩]
  { st with chatHistory := histSet st.chatHistory key h1 }

/-- The prompt `ask` sends to the completion capability (`ask`, lines
287-318): the policy flags of the resolved record, sheet retrieval on the
post-append state, the joined hotel data, and `_build_prompt`. -/
def askPrompt (st : BotState) (query : String) (userIdentifier : Option String)
    (now : Nat) (nowIso : String) : String :=
  let st1 := askStateAfterUser st query userIdentifier now nowIso
  let pol := policyEval (askClientRow st userIdentifier)
  let docs := retrieveFromSheets st1 query (some st1.retrieverK)
  let hotelData := String.intercalate "\n\n" (docs.map (fun d => d.pageContent))
  buildPrompt st1 hotelData query (some (askKey st userIdentifier now)) pol.1 pol.2

/-- `ConciergeBot.ask` (qa_agent_new.py, lines 236-339).  The completion
capability is the explicit `llm`; an `Except.error` models the LLM call
raising, in which case the handler returns the fixed apology with the state
as already mutated (the appended user turn stays, nothing else is written).
`now` models `int(time.time())`, `nowIso` the `datetime.utcnow().isoformat()`
timestamps.  The sheet refresh is the identity on the cached snapshot, and
the vector-store fallback retriever is absent (sheet mode), as in the
deployable configuration. -/
def ask (st : BotState) (query : String) (userIdentifier : Option String)
    (llm : String → Except Unit String) (now : Nat) (nowIso : String) :
    String × BotState :=
  let key := askKey st userIdentifier now
  let st1 := askStateAfterUser st query userIdentifier now nowIso
  match llm (askPrompt st query userIdentifier now nowIso) with
  | .error _ => (apologyText, st1)
  | .ok ans =>
    let finalAnswer := pyStrip ans
    let h2 := ((histLookup st1.chatHistory key).getD []) ++ [⟨"assistant", finalAnswer, nowIso⟩]
    let h3 := if 50 < h2.length then h2.drop (h2.length - 50) else h2
    (finalAnswer, { st1 with chatHistory := histSet st1.chatHistory key h3 })

/-! ## Booking-form trigger of the `chat` endpoints -/

/-- The keyword list of `main_new.py`, line 467. -/
def bookingKeywords : List String :=
  ["book a room", "book room", "book", "reserve", "reservation", "room availability"]

/-- The booking-form trigger of the `chat` handler of `main_new.py`
(lines 466-469): true iff the lowercased message contains a booking keyword;
the classified intent plays no part. -/
def showBookingFormNew (message : String) : Bool :=
  bookingKeywords.any (fun kw => pyContains kw (pyLower message))

/-- The booking-form trigger of the `chat` handler of `main.py`
(lines 394-395): true iff the intent is a payment or booking request;
the message keywords play no part. -/
def showBookingFormOld (intent : String) : Bool :=
  (["payment_request", "booking_request"] : List String).contains intent

/-- The trigger exactly as claim C9 words it: keyword match or a
booking/payment intent. -/
def claimBookingForm (message intent : String) : Bool :=
  bookingKeywords.any (fun kw => pyContains kw (pyLower message)) ||
  (intent == "booking_request" || intent == "payment_request")

/-! ## Claim C3: the policy evaluator -/

/-- C3, counterexample: a stripped booking id "None" is accepted by the code
as a real booking id (the placeholder comparison at line 207 is
case-sensitive), while the claim's case-insensitive reading demands
`is_booked = false` for it. -/
theorem policy_evaluator_counterexample :
    isUserBooked [("Booking Id", "None")] = true ∧
    specIsBookedClaim [("Booking Id", "None")] = false := by
  decide

/-- C3 as amended: `_is_user_booked` returns true iff the workflow stage
equals "confirmed" case-insensitively, or the stripped booking-id (resp.
room) value is non-empty and differs *case-sensitively* from every
placeholder; `_is_id_verified` returns true iff the trimmed, lowercased
identity-proof value equals "done" or contains "http"; with no record both
flags are false. -/
theorem policy_evaluator_amended (row : Row) :
    isUserBooked row = specIsBookedAmended row ∧
    isIdVerified row = specIsVerifiedClaim row ∧
    policyEval none = (false, false) := by
  refine ⟨?_, ?_, rfl⟩
  · by_cases hrow : row.isEmpty
    · rw [List.isEmpty_iff.mp hrow]
      decide
    · by_cases h1 : wfStage row = "confirmed" <;>
        by_cases h2 : bookingIdField row ≠ "" ∧ bookingIdField row ∉ placeholders <;>
        by_cases h3 : roomField row ≠ "" ∧ roomField row ∉ placeholders <;>
        simp [isUserBooked, specIsBookedAmended, hrow, h1, h2, h3]
  · cases hv : rget row "Id Link" with
    | none =>
      simp only [isIdVerified, specIsVerifiedClaim, rgetD, hv, Option.getD]
      decide
    | some v =>
      by_cases hv0 : v = ""
      · simp only [isIdVerified, specIsVerifiedClaim, rgetD, hv, hv0, Option.getD]
        decide
      · simp only [isIdVerified, specIsVerifiedClaim, rgetD, hv, hv0, Option.getD,
          if_neg hv0]
        by_cases hd : pyLower (pyStrip v) = "done" <;>
          by_cases hh : pyContains "http" (pyLower (pyStrip v)) = true <;>
          simp [hd, hh]

/-! ## Claim C7: history-key derivation -/

/-- C7, counterexample: the ephemeral key is `session_` followed by
`int(time.time())`, so two anonymous calls that fall in the same clock
second (here both at second 7) receive the *same* key — the claimed
non-collision of ephemeral keys is false. -/
theorem history_key_counterexample :
    ¬ (∀ t1 t2 : Nat, getChatHistoryKey none none t1 ≠ getChatHistoryKey none none t2) := by
  intro h
  exact h 7 7 rfl

/-- C7 as amended: two calls resolving rows with the same (truthy) email give
the same key, whatever the other arguments; an anonymous call's key is
exactly `"session_" ++ the integer second`, so anonymous calls collide
precisely when they share that second. -/
theorem history_key_amended :
    (∀ (r1 r2 : Row) (u1 u2 : Option String) (n1 n2 : Nat) (e : String),
      e ≠ "" → rgetD r1 "Email" "" = e → rgetD r2 "Email" "" = e →
      getChatHistoryKey (some r1) u1 n1 = getChatHistoryKey (some r2) u2 n2) ∧
    (∀ t : Nat, getChatHistoryKey none none t = "session_" ++ toString t) := by
  constructor
  · intro r1 r2 u1 u2 n1 n2 e he h1 h2
    simp [getChatHistoryKey, h1, h2, he]
  · intro t
    rfl

/-! ## Claim C8: identity resolution order -/

/-- The row loop of `_find_client_row` is `List.find?` with the per-row
disjunction: the *first row* any of whose fields matches wins. -/
theorem findRowLoop_eq_find? (iid : String) (rows : List Row) :
    findRowLoop iid rows = rows.find? (clientRowMatch iid) := by
  induction rows with
  | nil => rfl
  | cons row rest ih =>
    by_cases h : clientRowMatch iid row
    · simp [findRowLoop, List.find?, h]
    · simp only [Bool.not_eq_true] at h
      simp [findRowLoop, List.find?, h, ih]

/-- C8, counterexample: with a first record matching only by display name and
a second record matching by email, the resolver returns the *first* record —
rows are scanned in order with all four field checks per row, so a
lower-priority match in an earlier row beats an email match in a later row,
contradicting the claimed global email-first priority. -/
theorem find_client_row_counterexample :
    findClientRow [[("Email", "a@b.com"), ("Name", "bob")], [("Email", "bob")]] "Bob " =
      some [("Email", "a@b.com"), ("Name", "bob")] ∧
    pyLower (pyStrip (rgetD [("Email", "bob")] "Email" "")) = "bob" ∧
    ([("Email", "a@b.com"), ("Name", "bob")] : Row) ≠ [("Email", "bob")] := by
  decide

/-- C8 as amended: the resolver normalizes the identifier (trim, lowercase)
and scans the records *in sheet order*, checking email, client id, booking id
and display name per record, and returns the first record any of whose fields
matches exactly after normalization (so field priority applies within a
record, not across records); a falsy identifier or empty record list
resolves to nothing. -/
theorem find_client_row_amended (rows : List Row) (identifier : String) :
    (identifier = "" ∨ rows = [] → findClientRow rows identifier = none) ∧
    (identifier ≠ "" → rows ≠ [] →
      findClientRow rows identifier =
        rows.find? (clientRowMatch (pyLower (pyStrip identifier)))) ∧
    (∀ r, findClientRow rows identifier = some r →
      r ∈ rows ∧ clientRowMatch (pyLower (pyStrip identifier)) r = true) := by
  refine ⟨?_, ?_, ?_⟩
  · intro h
    simp [findClientRow, h]
  · intro h1 h2
    simp only [findClientRow, findRowLoop_eq_find?]
    rw [if_neg]
    push_neg
    exact ⟨h1, h2⟩
  · intro r hr
    simp only [findClientRow] at hr
    split at hr
    · exact absurd hr (by simp)
    · rw [findRowLoop_eq_find?] at hr
      exact ⟨List.mem_of_find?_eq_some hr, List.find?_some hr⟩

/-! ## Claim C9: booking-form trigger -/

/-- C9, counterexample: in `main_new.py` a message with intent
"payment_request" but no booking keyword does **not** set the booking form,
and in `main.py` a message containing the keyword "reserve" with a
non-booking intent does not either — each handler implements only half of
the claimed disjunction. -/
theorem booking_form_counterexample :
    claimBookingForm "i want to pay now" "payment_request" = true ∧
    showBookingFormNew "i want to pay now" = false ∧
    claimBookingForm "can you reserve a table" "general" = true ∧
    showBookingFormOld "general" = false := by
  decide

/-- C9 as amended: the `main_new.py` handler sets `show_booking_form` iff the
lowercased message contains one of the booking keywords (intent plays no
part), while the `main.py` handler sets it iff the classified intent is
`payment_request` or `booking_request` (keywords play no part). -/
theorem booking_form_amended (message intent : String) :
    (showBookingFormNew message = true ↔
      ∃ kw, kw ∈ bookingKeywords ∧ pyContains kw (pyLower message) = true) ∧
    (showBookingFormOld intent = true ↔
      intent = "payment_request" ∨ intent = "booking_request") := by
  constructor
  · simp [showBookingFormNew, List.any_eq_true]
  · constructor
    · intro h
      simpa using List.mem_of_elem_eq_true h
    · intro h
      apply List.elem_eq_true_of_mem
      simpa using h


/-! ## Claims C2 and C6: turn recording and the history bound -/

/-- A turn record (helper for readable statements). -/
def mkTurn (role text ts : String) : Turn := ⟨role, text, ts⟩

/-- Reading a key that heads the list. -/
theorem histLookup_cons_pos (p : String × List Turn) (t : List (String × List Turn))
    (k : String) (h : (p.1 == k) = true) : histLookup (p :: t) k = some p.2 := by
  have h1 : List.find? (fun q => q.1 == k) (p :: t) = some p := List.find?_cons_of_pos _ h
  unfold histLookup
  rw [h1]
  rfl

/-- Reading past a non-matching head. -/
theorem histLookup_cons_neg (p : String × List Turn) (t : List (String × List Turn))
    (k : String) (h : ¬(p.1 == k) = true) : histLookup (p :: t) k = histLookup t k := by
  have h1 : List.find? (fun q => q.1 == k) (p :: t) = List.find? (fun q => q.1 == k) t :=
    List.find?_cons_of_neg _ h
  unfold histLookup
  rw [h1]

/-- Writing a key's history and reading it back yields the written value. -/
theorem histLookup_histSet (h : List (String × List Turn)) (k : String) (v : List Turn) :
    histLookup (histSet h k v) k = some v := by
  have hbeq : (k == k) = true := beq_self_eq_true k
  induction h with
  | nil =>
    have hn : histSet [] k v = [(k, v)] := by simp [histSet]
    rw [hn]
    exact histLookup_cons_pos (k, v) [] k hbeq
  | cons p t ih =>
    by_cases hpk : (p.1 == k) = true
    · have hpeq : p.1 = k := by simpa using hpk
      have h1 : List.find? (fun q => q.1 == k) (p :: t) = some p :=
        List.find?_cons_of_pos _ hpk
      have hset : histSet (p :: t) k v =
          (k, v) :: t.map (fun q => if q.1 == k then (k, v) else q) := by
        simp [histSet, h1, hpk, hpeq]
      rw [hset]
      exact histLookup_cons_pos (k, v) _ k hbeq
    · have hpne : ¬p.1 = k := by simpa using hpk
      have h1 : List.find? (fun q => q.1 == k) (p :: t) = List.find? (fun q => q.1 == k) t :=
        List.find?_cons_of_neg _ hpk
      by_cases hf : (List.find? (fun q => q.1 == k) t).isSome = true
      · have ht : histSet t k v = t.map (fun q => if q.1 == k then (k, v) else q) := by
          unfold histSet
          rw [hf]
          simp
        have hset : histSet (p :: t) k v =
            p :: t.map (fun q => if q.1 == k then (k, v) else q) := by
          unfold histSet
          rw [h1, hf]
          simp [hpne]
        rw [hset, histLookup_cons_neg _ _ _ hpk, ← ht]
        exact ih
      · have hf2 : (List.find? (fun q => q.1 == k) t).isSome = false :=
          Bool.eq_false_iff.mpr hf
        have ht : histSet t k v = t ++ [(k, v)] := by
          unfold histSet
          rw [hf2]
          simp
        have hset : histSet (p :: t) k v = p :: (t ++ [(k, v)]) := by
          unfold histSet
          rw [h1, hf2]
          simp
        rw [hset, histLookup_cons_neg _ _ _ hpk, ← ht]
        exact ih

/-- Trimming to the last 50 only when longer than 50 is the same as always
dropping all but the last 50. -/
theorem trim_eq_drop (h2 : List Turn) :
    (if 50 < h2.length then h2.drop (h2.length - 50) else h2) = h2.drop (h2.length - 50) := by
  by_cases h : 50 < h2.length
  · simp [h]
  · have hz : h2.length - 50 = 0 := by omega
    simp [h, hz]

/-- A minimal bot state: no sheets, no clients, empty history. -/
def sampleState : BotState := ⟨[], [], [], [], [], [], 5, "AI Assistant"⟩

/-- A completion capability that always raises. -/
def failingLLM : String → Except Unit String := fun _ => Except.error ()

/-- A completion capability that always answers "Sure!". -/
def okayLLM : String → Except Unit String := fun _ => Except.ok "Sure!"

/-- `n` consecutive turns with a failing completion capability on one key. -/
def repeatedFailure (n : Nat) : BotState :=
  (fun st => (ask st "hi" (some "u1") failingLLM 7 "t").2)^[n] sampleState

/-- C2, counterexample: one failing turn on an empty state stores only the
user turn — the apology is returned but *not* appended as an assistant turn,
so the stored user turn ends unpaired, against the claimed pairing. -/
theorem ask_failure_counterexample :
    (ask sampleState "hi" none failingLLM 7 "t").1 = apologyText ∧
    (histLookup (ask sampleState "hi" none failingLLM 7 "t").2.chatHistory "session_7").getD []
      = [mkTurn "user" "hi" "t"] := by
  decide

/-- The history map after the user-turn append. -/
theorem askStateAfterUser_hist (st : BotState) (query : String) (uid : Option String)
    (now : Nat) (iso : String) :
    (askStateAfterUser st query uid now iso).chatHistory =
      histSet st.chatHistory (askKey st uid now)
        (((histLookup st.chatHistory (askKey st uid now)).getD [])
          ++ [mkTurn "user" query iso]) := rfl

/-- C2 as amended: when the completion capability raises on this turn's
prompt, `ask` returns the fixed apology string, but the only history mutation
of the turn is the appended *user* turn — no assistant turn (in particular
not the apology) is recorded, so the stored history is left unpaired for
that turn. -/
theorem ask_failure_amended (st : BotState) (query : String) (uid : Option String)
    (llm : String → Except Unit String) (now : Nat) (iso : String)
    (hfail : llm (askPrompt st query uid now iso) = Except.error ()) :
    (ask st query uid llm now iso).1 = apologyText ∧
    (ask st query uid llm now iso).2 = askStateAfterUser st query uid now iso ∧
    (histLookup (ask st query uid llm now iso).2.chatHistory (askKey st uid now)).getD []
      = ((histLookup st.chatHistory (askKey st uid now)).getD [])
        ++ [mkTurn "user" query iso] := by
  refine ⟨?_, ?_, ?_⟩
  · simp [ask, hfail]
  · simp [ask, hfail]
  · simp only [ask, hfail]
    rw [askStateAfterUser_hist, histLookup_histSet, Option.getD_some]

/-- C2 witness at a concrete input: the amended theorem applied to the sample
state with the failing capability. -/
theorem ask_failure_amended_witness :
    (ask sampleState "hello" none failingLLM 3 "t0").1 = apologyText ∧
    (ask sampleState "hello" none failingLLM 3 "t0").2 =
      askStateAfterUser sampleState "hello" none 3 "t0" ∧
    (histLookup (ask sampleState "hello" none failingLLM 3 "t0").2.chatHistory
        (askKey sampleState none 3)).getD []
      = ((histLookup sampleState.chatHistory (askKey sampleState none 3)).getD [])
        ++ [mkTurn "user" "hello" "t0"] :=
  ask_failure_amended sampleState "hello" none failingLLM 3 "t0" rfl

set_option maxRecDepth 100000 in
/-- C6, counterexample: 55 turns appended to one key through 55 completed
turns whose completion capability raised — the failure path appends the user
turn and never trims, so all 55 turns remain, where the claim demands at
most 50 after every completed turn and exactly the most recent 50 once 55
have been appended. -/
theorem history_bound_counterexample :
    ((histLookup (repeatedFailure 55).chatHistory "user_u1").getD []).length = 55 := by
  decide

/-- C6 as amended: on every turn whose completion capability succeeds on the
turn's prompt, the stored history of the key is exactly the previous history
plus the user and assistant turns, trimmed to the most recent 50 in
insertion order, hence never longer than 50; the failure path (see the
counterexample) appends the user turn without trimming, so the cap does not
hold across failed turns. -/
theorem history_bound_amended (st : BotState) (query : String) (uid : Option String)
    (llm : String → Except Unit String) (now : Nat) (iso : String) (ans : String)
    (hok : llm (askPrompt st query uid now iso) = Except.ok ans) :
    ((histLookup (ask st query uid llm now iso).2.chatHistory (askKey st uid now)).getD []) =
      (((histLookup st.chatHistory (askKey st uid now)).getD [])
          ++ [mkTurn "user" query iso, mkTurn "assistant" (pyStrip ans) iso]).drop
        ((((histLookup st.chatHistory (askKey st uid now)).getD [])
          ++ [mkTurn "user" query iso, mkTurn "assistant" (pyStrip ans) iso]).length - 50) ∧
    ((histLookup (ask st query uid llm now iso).2.chatHistory (askKey st uid now)).getD []).length
      ≤ 50 ∧
    (ask st query uid llm now iso).1 = pyStrip ans := by
  have hlook1 : histLookup (askStateAfterUser st query uid now iso).chatHistory
      (askKey st uid now) =
      some (((histLookup st.chatHistory (askKey st uid now)).getD [])
        ++ [mkTurn "user" query iso]) := by
    rw [askStateAfterUser_hist]
    exact histLookup_histSet _ _ _
  refine ⟨?_, ?_, by simp [ask, hok]⟩
  · simp only [ask, hok, hlook1, Option.getD_some]
    rw [histLookup_histSet, Option.getD_some, trim_eq_drop]
    simp [mkTurn]
  · simp only [ask, hok, hlook1, Option.getD_some]
    rw [histLookup_histSet, Option.getD_some, trim_eq_drop]
    simp only [List.length_drop]
    omega

/-- C6 witness at a concrete input: the amended theorem applied to the sample
state with a succeeding capability. -/
theorem history_bound_amended_witness :
    ((histLookup (ask sampleState "hi" none okayLLM 7 "t").2.chatHistory
        (askKey sampleState none 7)).getD []).length ≤ 50 :=
  (history_bound_amended sampleState "hi" none okayLLM 7 "t" "Sure!" rfl).2.1

/-! ## Claim C1: policy-gated prompt content -/

/-- Substring containment: `pat` occurs contiguously in `s`. -/
def strContains (s pat : String) : Prop :=
  ∃ l r : List Char, s.data = l ++ pat.data ++ r

/-- Containment is preserved by prepending. -/
theorem strContains_appendL (s t pat : String) (h : strContains t pat) :
    strContains (s ++ t) pat := by
  obtain ⟨l, r, hlr⟩ := h
  exact ⟨s.data ++ l, r, by simp [String.data_append, hlr, List.append_assoc]⟩

/-- Containment is preserved by appending. -/
theorem strContains_appendR (s t pat : String) (h : strContains s pat) :
    strContains (s ++ t) pat := by
  obtain ⟨l, r, hlr⟩ := h
  exact ⟨l, r ++ t.data, by simp [String.data_append, hlr, List.append_assoc]⟩

/-- A string contains itself. -/
theorem strContains_self (pat : String) : strContains pat pat :=
  ⟨[], [], by simp⟩

/-- A two-chunk pattern straddling the left-association boundary. -/
theorem strContains_pair (x a c : String) : strContains ((x ++ a) ++ c) (a ++ c) :=
  ⟨x.data, [], by simp [String.data_append, List.append_assoc]⟩

/-- Containment is transitive. -/
theorem strContains_trans (s t pat : String) (h1 : strContains s t)
    (h2 : strContains t pat) : strContains s pat := by
  obtain ⟨l1, r1, e1⟩ := h1
  obtain ⟨l2, r2, e2⟩ := h2
  exact ⟨l1 ++ l2, r2 ++ r1, by rw [e1, e2]; simp [List.append_assoc]⟩

/-- The gating sentence carries the phrase claim C1 quotes. -/
theorem gateFraming_contains_phrase :
    strContains gateFraming "confirmed booking and ID verification" :=
  ⟨"For in-room services, spa bookings, or amenity access, politely explain that a ".data,
   " are required.\n\n".data, by decide⟩

/-- A string starting with a non-empty string is non-empty. -/
theorem str_append_ne_empty (a b : String) (h : a ≠ "") : a ++ b ≠ "" := by
  intro hc
  apply h
  have hd : a.data ++ b.data = [] := by
    have hdata := congrArg String.data hc
    simpa [String.data_append] using hdata
  exact String.ext_iff.mpr (List.append_eq_nil.mp hd).1

/-- The menu block is non-empty exactly when the guest is booked and verified
and the menu sheet has rows. -/
theorem menuText_ne_empty_iff (menu : List Row) (b v : Bool) :
    menuText menu b v ≠ "" ↔ b = true ∧ v = true ∧ menu ≠ [] := by
  constructor
  · intro hne
    by_cases hc : (!menu.isEmpty && (b && v)) = true
    · have hc2 := hc
      simp only [Bool.and_eq_true, Bool.not_eq_true'] at hc2
      exact ⟨hc2.2.1, hc2.2.2, by simpa [List.isEmpty_iff] using hc2.1⟩
    · exact absurd (by simp [menuText, hc]) hne
  · rintro ⟨hb, hv, hm⟩
    have hc : (!menu.isEmpty && (b && v)) = true := by
      simp [hb, hv, List.isEmpty_iff, hm]
    unfold menuText
    rw [if_pos hc]
    exact str_append_ne_empty _ _ (by decide)

/-- The campaigns block is non-empty exactly when the guest is booked and
verified and the campaigns sheet has rows. -/
theorem campaignsText_ne_empty_iff (campaigns : List Row) (b v : Bool) :
    campaignsText campaigns b v ≠ "" ↔ b = true ∧ v = true ∧ campaigns ≠ [] := by
  constructor
  · intro hne
    by_cases hc : (!campaigns.isEmpty && (b && v)) = true
    · have hc2 := hc
      simp only [Bool.and_eq_true, Bool.not_eq_true'] at hc2
      exact ⟨hc2.2.1, hc2.2.2, by simpa [List.isEmpty_iff] using hc2.1⟩
    · exact absurd (by simp [campaignsText, hc]) hne
  · rintro ⟨hb, hv, hm⟩
    have hc : (!campaigns.isEmpty && (b && v)) = true := by
      simp [hb, hv, List.isEmpty_iff, hm]
    unfold campaignsText
    rw [if_pos hc]
    exact str_append_ne_empty _ _ (by decide)

/-- The gate condition of `_build_prompt` is false for a booked and verified
guest. -/
theorem bothTrueGateCond : ¬((!true || !true) = true) := by decide

/-- C1: the menu and campaigns blocks of the composed prompt are non-empty
exactly when both policy flags hold and the corresponding sheet data is
non-empty; when both flags hold the prompt carries both blocks; when they do
not both hold, the prompt carries the required-booking-and-verification
framing and the current status, and is entirely independent of the menu and
campaign data (no such content can appear). -/
theorem prompt_policy_gate (st : BotState) (hotelData query : String)
    (sid : Option String) (b v : Bool) :
    (menuText st.menu b v ≠ "" ↔ b = true ∧ v = true ∧ st.menu ≠ []) ∧
    (campaignsText st.campaigns b v ≠ "" ↔ b = true ∧ v = true ∧ st.campaigns ≠ []) ∧
    (b = true → v = true →
      strContains (buildPrompt st hotelData query sid b v) (menuText st.menu b v) ∧
      strContains (buildPrompt st hotelData query sid b v) (campaignsText st.campaigns b v)) ∧
    ((b = false ∨ v = false) →
      strContains (buildPrompt st hotelData query sid b v) gateFraming ∧
      strContains (buildPrompt st hotelData query sid b v)
        "confirmed booking and ID verification" ∧
      strContains (buildPrompt st hotelData query sid b v)
        ("Status: " ++ (if b = true then "Booked but ID Not Verified" else "Not Booked")) ∧
      (∀ menu2 campaigns2 : List Row,
        buildPrompt { st with menu := menu2, campaigns := campaigns2 } hotelData query sid b v =
          buildPrompt st hotelData query sid b v)) := by
  refine ⟨menuText_ne_empty_iff st.menu b v, campaignsText_ne_empty_iff st.campaigns b v,
    ?_, ?_⟩
  · intro hb hv
    subst hb
    subst hv
    constructor
    · simp only [buildPrompt]
      rw [if_neg bothTrueGateCond]
      repeat
        first
        | exact strContains_appendL _ _ _ (strContains_self _)
        | apply strContains_appendR
    · simp only [buildPrompt]
      rw [if_neg bothTrueGateCond]
      repeat
        first
        | exact strContains_appendL _ _ _ (strContains_self _)
        | apply strContains_appendR
  · intro h
    have hcond : (!b || !v) = true := by
      rcases h with h | h <;> simp [h]
    have hg : strContains (buildPrompt st hotelData query sid b v) gateFraming := by
      simp only [buildPrompt]
      rw [if_pos hcond]
      repeat
        first
        | exact strContains_appendL _ _ _ (strContains_self _)
        | apply strContains_appendR
    refine ⟨hg, strContains_trans _ _ _ hg gateFraming_contains_phrase, ?_, ?_⟩
    · rcases h with hb | hv2
      · subst hb
        simp only [buildPrompt]
        rw [if_pos hcond]
        repeat
          first
          | exact strContains_pair _ _ _
          | apply strContains_appendR
      · subst hv2
        cases b with
        | false =>
          simp only [buildPrompt]
          rw [if_pos hcond]
          repeat
            first
            | exact strContains_pair _ _ _
            | apply strContains_appendR
        | true =>
          simp only [buildPrompt]
          rw [if_pos hcond]
          repeat
            first
            | exact strContains_pair _ _ _
            | apply strContains_appendR
    · intro menu2 campaigns2
      simp only [buildPrompt]
      rw [if_pos hcond, if_pos hcond]

/-! ## Claim C4: the hybrid relevance score -/

/-- C4, counterexample: for the truthy inputs "?" and "!" both texts
normalize to "", the token sets are empty, and the code returns 0 — but the
claimed formula gives `0.65 * 0 + 0.35 * ratio("", "") = 0.35`, since the
sequence ratio of two empty strings is 1. -/
theorem score_doc_counterexample :
    scoreDoc "?" "!" = 0 ∧ specScoreClaim "?" "!" = 7 / 20 ∧
    scoreDoc "?" "!" ≠ specScoreClaim "?" "!" := by
  have h1 : normalizeText "!" = "" := by decide
  have h2 : normalizeText "?" = "" := by decide
  have h3 : pyWords "" = [] := by decide
  have ha : scoreDoc "?" "!" = 0 := by simp [scoreDoc, h1, h2, h3]
  have hb : specScoreClaim "?" "!" = 7 / 20 := by
    simp only [specScoreClaim, h1, h2, h3]
    norm_num [seqSim]
  refine ⟨ha, hb, ?_⟩
  rw [ha, hb]
  norm_num

/-- C4 as amended: the score equals the claimed hybrid formula whenever both
inputs are non-empty and both normalized token sets are non-empty, and is 0
otherwise (in particular 0, not 0.35, when both texts normalize to the empty
string). -/
theorem score_doc_amended (docText query : String) :
    scoreDoc docText query = specScoreAmended docText query := by
  by_cases h1 : query = ""
  · simp [scoreDoc, specScoreAmended, h1]
  · by_cases h2 : docText = ""
    · simp [scoreDoc, specScoreAmended, h1, h2]
    · by_cases h3 : (pyWords (normalizeText query)).toFinset = ∅
      · simp [scoreDoc, specScoreAmended, specScoreClaim, h1, h2, h3]
      · by_cases h4 : (pyWords (normalizeText docText)).toFinset = ∅
        · simp [scoreDoc, specScoreAmended, specScoreClaim, h1, h2, h3, h4]
        · simp [scoreDoc, specScoreAmended, specScoreClaim, h1, h2, h3, h4]

/-! ## Claim C5: sheet retrieval -/

/-- Stable descending insertion is a permutation of consing. -/
theorem insertDesc_perm (x : Scored) (l : List Scored) :
    (insertDesc x l).Perm (x :: l) := by
  induction l with
  | nil => simp [insertDesc]
  | cons h t ih =>
    by_cases hc : h.1 ≤ x.1
    · simp [insertDesc, hc]
    · simp only [insertDesc, if_neg hc]
      exact (ih.cons h).trans (List.Perm.swap x h t)

/-- The stable sort is a permutation of its input. -/
theorem sortDescScored_perm (l : List Scored) : (sortDescScored l).Perm l := by
  induction l with
  | nil => simp [sortDescScored]
  | cons x t ih => exact (insertDesc_perm x (sortDescScored t)).trans (ih.cons x)

/-- Inserting into a descending-sorted list keeps it sorted. -/
theorem insertDesc_sorted (x : Scored) (l : List Scored)
    (h : l.Pairwise (fun p q => q.1 ≤ p.1)) :
    (insertDesc x l).Pairwise (fun p q => q.1 ≤ p.1) := by
  induction l with
  | nil => simp [insertDesc]
  | cons hd t ih =>
    rw [List.pairwise_cons] at h
    by_cases hc : hd.1 ≤ x.1
    · simp only [insertDesc, if_pos hc, List.pairwise_cons]
      refine ⟨?_, h.1, h.2⟩
      intro q hq
      rcases List.mem_cons.mp hq with hq | hq
      · exact hq ▸ hc
      · exact le_trans (h.1 q hq) hc
    · simp only [insertDesc, if_neg hc, List.pairwise_cons]
      refine ⟨?_, ih h.2⟩
      intro q hq
      have hq2 : q ∈ x :: t := (insertDesc_perm x t).mem_iff.mp hq
      rcases List.mem_cons.mp hq2 with hq2 | hq2
      · exact hq2 ▸ le_of_not_le hc
      · exact h.1 q hq2

/-- The stable sort is descending-sorted. -/
theorem sortDescScored_sorted (l : List Scored) :
    (sortDescScored l).Pairwise (fun p q => q.1 ≤ p.1) := by
  induction l with
  | nil => simp [sortDescScored]
  | cons x t ih => exact insertDesc_sorted x (sortDescScored t) ih

/-- Stability of the insertion: elements of any one score keep their order
(the inserted element passes only strictly greater scores). -/
theorem insertDesc_filter (x : Scored) (l : List Scored) (s : ℚ) :
    (insertDesc x l).filter (fun p => p.1 == s) =
      (x :: l).filter (fun p => p.1 == s) := by
  induction l with
  | nil => rfl
  | cons hd t ih =>
    by_cases hc : hd.1 ≤ x.1
    · simp [insertDesc, hc]
    · cases hxs : (x.1 == s) with
      | true =>
        have hxq : x.1 = s := by simpa using hxs
        have hhd : (hd.1 == s) = false := by
          have : ¬hd.1 = s := fun hcontra => hc (le_of_eq (hcontra.trans hxq.symm))
          simpa using this
        have ihs := ih
        simp only [List.filter_cons, hxs, hhd] at ihs ⊢
        simp only [insertDesc, if_neg hc, List.filter_cons, hhd, ihs]
        simp [List.filter_cons, hxs]
      | false =>
        have ihs := ih
        simp only [List.filter_cons, hxs] at ihs ⊢
        simp only [insertDesc, if_neg hc, List.filter_cons, ihs]
        simp

/-- Stability of the full sort: filtering any one score gives the same
subsequence, in the same (original) order, before and after sorting. -/
theorem sortDescScored_filter (l : List Scored) (s : ℚ) :
    (sortDescScored l).filter (fun p => p.1 == s) = l.filter (fun p => p.1 == s) := by
  induction l with
  | nil => rfl
  | cons x t ih =>
    calc (sortDescScored (x :: t)).filter (fun p => p.1 == s)
        = (x :: sortDescScored t).filter (fun p => p.1 == s) :=
          insertDesc_filter x (sortDescScored t) s
      _ = (x :: t).filter (fun p => p.1 == s) := by
          simp only [List.filter_cons]
          rw [ih]

/-- A one-row QnA corpus for concrete evaluation. -/
def sampleQnaState : BotState :=
  ⟨[], [[("question", "pool hours"), ("answer", "9am")]], [], [], [], [], 5, "AI Assistant"⟩

/-- C5, counterexample: `k = k or self.retriever_k` treats `k = 0` as unset,
so asking for at most 0 passages returns `retriever_k`-many (here 1 from a
1-row corpus) — more than `k`. -/
theorem retrieve_counterexample :
    (retrieveFromSheets sampleQnaState "?" (some 0)).length = 1 ∧
    ¬((retrieveFromSheets sampleQnaState "?" (some 0)).length ≤ 0) := by
  decide

/-- C5 as amended: for every positive `k` sheet retrieval returns at most `k`
passages (a `k` of zero is replaced by the default), sorted by non-increasing
score; the underlying stable sort is a permutation of the scored rows in
original order whose equal-score entries keep that order (stability), and an
empty corpus yields the empty list (determinism is definitional: the
retrieval is a pure function). -/
theorem retrieve_amended (st : BotState) (query : String) (k : Nat) (hk : 1 ≤ k) :
    (st.qnaRows = [] → retrieveFromSheets st query (some k) = []) ∧
    (retrieveFromSheets st query (some k)).length ≤ k ∧
    List.Pairwise (fun p q => q.score ≤ p.score) (retrieveFromSheets st query (some k)) ∧
    retrieveFromSheets st query (some k) =
      ((sortDescScored (scoredList st.qnaRows query)).take k).map
        (fun x => ⟨x.2.1, x.1, x.2.2⟩) ∧
    (sortDescScored (scoredList st.qnaRows query)).Perm (scoredList st.qnaRows query) ∧
    (∀ s : ℚ, (sortDescScored (scoredList st.qnaRows query)).filter (fun x => x.1 == s) =
      (scoredList st.qnaRows query).filter (fun x => x.1 == s)) := by
  have hk0 : ¬(k = 0) := by omega
  refine ⟨?_, ?_, ?_, ?_, sortDescScored_perm _, fun s => sortDescScored_filter _ s⟩
  · intro h
    simp [retrieveFromSheets, h]
  · by_cases h : st.qnaRows.isEmpty
    · simp [retrieveFromSheets, h]
    · have hiff : st.qnaRows.isEmpty = false := Bool.eq_false_iff.mpr h
      simp only [retrieveFromSheets, hk0, hiff, Bool.false_eq_true, if_false,
        List.length_map, List.length_take]
      omega
  · by_cases h : st.qnaRows.isEmpty
    · simp [retrieveFromSheets, h]
    · have hiff : st.qnaRows.isEmpty = false := Bool.eq_false_iff.mpr h
      simp only [retrieveFromSheets, hk0, hiff, Bool.false_eq_true, if_false]
      apply List.pairwise_map.mpr
      exact ((sortDescScored_sorted _).sublist (List.take_sublist _ _))
  · by_cases h : st.qnaRows.isEmpty
    · have h2 : st.qnaRows = [] := List.isEmpty_iff.mp h
      simp [retrieveFromSheets, h, h2, scoredList, sortDescScored]
    · simp [retrieveFromSheets, hk0, h]

/-- C5 witness at a concrete input: the length bound of the amended theorem
at the one-row corpus with `k = 1`. -/
theorem retrieve_amended_witness :
    (retrieveFromSheets sampleQnaState "?" (some 1)).length ≤ 1 :=
  (retrieve_amended sampleQnaState "?" 1 (by norm_num)).2.1

/-! ## Claim C10: the score lies in [0, 1]

The only non-trivial ingredient is that the matching blocks of the
`SequenceMatcher` embedding are disjoint in each sequence, so their total
size is at most each sequence's length; this follows from range bounds on
`find_longest_match` proved by fold invariants below. -/

/-- Range soundness of a `(besti, bestj, bestsize)` triple for the window
`[alo, ahi) × [blo, bhi)`. -/
def GoodBest (alo ahi blo bhi : Nat) (m : BestRec) : Prop :=
  alo ≤ m.besti ∧ m.besti + m.bestk ≤ ahi ∧ blo ≤ m.bestj ∧ m.bestj + m.bestk ≤ bhi

/-- Invariant of a `j2len` row: every entry is at most the number of rows
processed, and a positive entry's run starts no earlier than `blo`. -/
def GoodRow (bound blo : Nat) (f : Nat → Nat) : Prop :=
  ∀ j, f j ≤ bound ∧ (1 ≤ f j → blo + f j ≤ j + 1)

/-- The inner DP loop preserves the row and best-block invariants. -/
theorem flmInner_good (alo ahi blo bhi i m : Nat) (j2old : Nat → Nat)
    (hold : GoodRow m blo j2old) (hi1 : alo + m ≤ i) (hi2 : i < ahi) :
    ∀ (js : List Nat) (j2new : Nat → Nat) (best : BestRec),
      (∀ j ∈ js, blo ≤ j ∧ j < bhi) →
      GoodRow (m + 1) blo j2new →
      GoodBest alo ahi blo bhi best →
      GoodRow (m + 1) blo (flmInner j2old i js (j2new, best)).1 ∧
      GoodBest alo ahi blo bhi (flmInner j2old i js (j2new, best)).2 := by
  intro js
  induction js with
  | nil =>
    intro j2new best _ hrow hbest
    exact ⟨hrow, hbest⟩
  | cons j js ih =>
    intro j2new best hmem hrow hbest
    have hj : blo ≤ j ∧ j < bhi := hmem j (List.mem_cons_self j js)
    have hmem' : ∀ x ∈ js, blo ≤ x ∧ x < bhi := fun x hx => hmem x (List.mem_cons_of_mem j hx)
    simp only [flmInner]
    set k := if j = 0 then 1 else j2old (j - 1) + 1 with hkdef
    have hk1 : 1 ≤ k := by
      rw [hkdef]
      split <;> omega
    have hkm : k ≤ m + 1 := by
      rw [hkdef]
      split
      · omega
      · have := (hold (j - 1)).1
        omega
    have hkj : blo + k ≤ j + 1 := by
      rw [hkdef]
      split
      · omega
      · rename_i hj0
        have h2 := (hold (j - 1)).2
        by_cases hz : 1 ≤ j2old (j - 1)
        · have := h2 hz
          omega
        · omega
    have hrow' : GoodRow (m + 1) blo (fun x => if x = j then k else j2new x) := by
      intro x
      by_cases hxj : x = j
      · simp only [hxj, if_pos rfl]
        exact ⟨hkm, fun _ => hkj⟩
      · simp only [if_neg hxj]
        exact hrow x
    have hbest' : GoodBest alo ahi blo bhi
        (if best.bestk < k then ⟨i + 1 - k, j + 1 - k, k⟩ else best) := by
      split
      · refine ⟨?_, ?_, ?_, ?_⟩ <;> simp only <;> omega
      · exact hbest
    exact ih _ _ hmem' hrow' hbest'

/-- The outer DP loop over consecutive row indices preserves the best-block
invariant. -/
theorem flmOuter_good (a b : List Char) (alo ahi blo bhi : Nat) :
    ∀ (n istart : Nat) (j2old : Nat → Nat) (best : BestRec) (m : Nat),
      GoodRow m blo j2old → alo + m ≤ istart → istart + n ≤ ahi →
      GoodBest alo ahi blo bhi best →
      GoodBest alo ahi blo bhi
        (flmOuter a b blo bhi (List.range' istart n) (j2old, best)).2 := by
  intro n
  induction n with
  | zero =>
    intro istart j2old best m _ _ _ hbest
    simpa [flmOuter] using hbest
  | succ n ih =>
    intro istart j2old best m hrow h1 h2 hbest
    have hrange : List.range' istart (n + 1) = istart :: List.range' (istart + 1) n := rfl
    rw [hrange]
    simp only [flmOuter]
    have hmem : ∀ j ∈ (b2j b (a.getD istart ' ')).filter
        (fun j => decide (blo ≤ j) && decide (j < bhi)), blo ≤ j ∧ j < bhi := by
      intro j hjmem
      have := (List.mem_filter.mp hjmem).2
      simp only [Bool.and_eq_true, decide_eq_true_eq] at this
      exact this
    have hzero : GoodRow (m + 1) blo (fun _ => 0) := by
      intro j
      refine ⟨by simp, ?_⟩
      intro hj
      simp at hj
    have hstep := flmInner_good alo ahi blo bhi istart m j2old hrow h1 (by omega)
      _ (fun _ => 0) best hmem hzero hbest
    obtain ⟨hrow', hbest'⟩ := hstep
    have hpair : flmInner j2old istart
        ((b2j b (a.getD istart ' ')).filter (fun j => decide (blo ≤ j) && decide (j < bhi)))
        ((fun _ => 0), best) =
        ((flmInner j2old istart _ ((fun _ => 0), best)).1,
         (flmInner j2old istart _ ((fun _ => 0), best)).2) := rfl
    rw [hpair]
    exact ih (istart + 1) _ _ (m + 1) hrow' (by omega) (by omega) hbest'

/-- The left extension loop preserves the best-block invariant. -/
theorem extendLeft_good (a b : List Char) (alo blo ahi bhi : Nat) :
    ∀ (fuel : Nat) (best : BestRec), GoodBest alo ahi blo bhi best →
      GoodBest alo ahi blo bhi (extendLeft a b alo blo fuel best) := by
  intro fuel
  induction fuel with
  | zero => intro best h; exact h
  | succ fuel ih =>
    intro best h
    simp only [extendLeft]
    split
    · rename_i hcond
      obtain ⟨hc1, hc2, _⟩ := hcond
      apply ih
      obtain ⟨h1, h2, h3, h4⟩ := h
      refine ⟨?_, ?_, ?_, ?_⟩ <;> dsimp only <;> omega
    · exact h

/-- The right extension loop preserves the best-block invariant. -/
theorem extendRight_good (a b : List Char) (ahi bhi alo blo : Nat) :
    ∀ (fuel : Nat) (best : BestRec), GoodBest alo ahi blo bhi best →
      GoodBest alo ahi blo bhi (extendRight a b ahi bhi fuel best) := by
  intro fuel
  induction fuel with
  | zero => intro best h; exact h
  | succ fuel ih =>
    intro best h
    simp only [extendRight]
    split
    · rename_i hcond
      obtain ⟨hc1, hc2, _⟩ := hcond
      apply ih
      obtain ⟨h1, h2, h3, h4⟩ := h
      refine ⟨?_, ?_, ?_, ?_⟩ <;> dsimp only <;> omega
    · exact h

/-- `find_longest_match` returns a block inside the window. -/
theorem findLongestMatch_good (a b : List Char) (alo ahi blo bhi : Nat)
    (h1 : alo ≤ ahi) (h2 : blo ≤ bhi) :
    GoodBest alo ahi blo bhi (findLongestMatch a b alo ahi blo bhi) := by
  have hrow0 : GoodRow 0 blo (fun _ => 0) := by
    intro j
    refine ⟨by simp, ?_⟩
    intro hj
    simp at hj
  unfold findLongestMatch
  apply extendRight_good
  apply extendLeft_good
  refine flmOuter_good a b alo ahi blo bhi (ahi - alo) alo (fun _ => 0) ⟨alo, blo, 0⟩ 0
    hrow0 (by omega) (by omega) ⟨?_, ?_, ?_, ?_⟩ <;> dsimp only <;> omega

/-- The matching blocks are disjoint in each sequence: their total size is
bounded by both window widths. -/
theorem mbAux_sum_le (a b : List Char) :
    ∀ (fuel alo ahi blo bhi : Nat), alo ≤ ahi → blo ≤ bhi →
      (((matchingBlocksAux a b fuel alo ahi blo bhi).map (fun m => m.bestk)).sum ≤ ahi - alo ∧
       ((matchingBlocksAux a b fuel alo ahi blo bhi).map (fun m => m.bestk)).sum ≤ bhi - blo) := by
  intro fuel
  induction fuel with
  | zero =>
    intro alo ahi blo bhi _ _
    simp [matchingBlocksAux]
  | succ fuel ih =>
    intro alo ahi blo bhi h1 h2
    have hg := findLongestMatch_good a b alo ahi blo bhi h1 h2
    obtain ⟨hg1, hg2, hg3, hg4⟩ := hg
    simp only [matchingBlocksAux]
    split
    · simp
    · have ihl := ih alo (findLongestMatch a b alo ahi blo bhi).besti blo
        (findLongestMatch a b alo ahi blo bhi).bestj hg1 hg3
      have ihr := ih ((findLongestMatch a b alo ahi blo bhi).besti +
          (findLongestMatch a b alo ahi blo bhi).bestk) ahi
        ((findLongestMatch a b alo ahi blo bhi).bestj +
          (findLongestMatch a b alo ahi blo bhi).bestk) bhi hg2 hg4
      simp only [List.map_append, List.sum_append, List.map_cons, List.sum_cons]
      obtain ⟨ihl1, ihl2⟩ := ihl
      obtain ⟨ihr1, ihr2⟩ := ihr
      constructor
      · omega
      · omega

/-- The total matched size is at most each sequence's length. -/
theorem matchTotal_le (a b : List Char) :
    matchTotal a b ≤ a.length ∧ matchTotal a b ≤ b.length := by
  have h := mbAux_sum_le a b (a.length + b.length + 1) 0 a.length 0 b.length
    (by omega) (by omega)
  simpa [matchTotal] using h

/-- The sequence-similarity ratio lies in [0, 1]. -/
theorem seqSim_bounds (x y : String) : 0 ≤ seqSim x y ∧ seqSim x y ≤ 1 := by
  unfold seqSim
  split
  · norm_num
  · rename_i hlen
    have hM := matchTotal_le x.data y.data
    have hpos : (0 : ℚ) < (x.data.length : ℚ) + (y.data.length : ℚ) := by
      have : 0 < x.data.length + y.data.length := by omega
      exact_mod_cast this
    constructor
    · apply div_nonneg
      · positivity
      · linarith
    · rw [div_le_one hpos]
      have h2 : 2 * matchTotal x.data y.data ≤ x.data.length + y.data.length := by omega
      exact_mod_cast h2

/-- C10: the hybrid relevance score always lies in the closed interval
[0, 1]: both component ratios are in [0, 1] and the weights 0.65 and 0.35
sum to 1. -/
theorem score_doc_bounds (docText query : String) :
    0 ≤ scoreDoc docText query ∧ scoreDoc docText query ≤ 1 := by
  unfold scoreDoc
  split
  · norm_num
  · dsimp only
    split
    · norm_num
    · rename_i hguards htok
      push_neg at htok
      obtain ⟨hq, hd⟩ := htok
      set qt := (pyWords (normalizeText query)).toFinset with hqt
      set dt := (pyWords (normalizeText docText)).toFinset with hdt
      have hqpos : 0 < qt.card := Finset.card_pos.mpr (Finset.nonempty_iff_ne_empty.mpr hq)
      have hdpos : 0 < dt.card := Finset.card_pos.mpr (Finset.nonempty_iff_ne_empty.mpr hd)
      have hq1 : (0 : ℚ) < qt.card := by exact_mod_cast hqpos
      have hd1 : (0 : ℚ) < dt.card := by exact_mod_cast hdpos
      have hminpos : (0 : ℚ) < (qt.card : ℚ) ⊓ (dt.card : ℚ) := lt_min hq1 hd1
      have hcardle : ((qt ∩ dt).card : ℚ) ≤ (qt.card : ℚ) ⊓ (dt.card : ℚ) := by
        apply le_min
        · exact_mod_cast Finset.card_le_card Finset.inter_subset_left
        · exact_mod_cast Finset.card_le_card Finset.inter_subset_right
      have hov0 : (0 : ℚ) ≤ ((qt ∩ dt).card : ℚ) / ((qt.card : ℚ) ⊓ (dt.card : ℚ)) :=
        div_nonneg (by positivity) (le_of_lt hminpos)
      have hov1 : ((qt ∩ dt).card : ℚ) / ((qt.card : ℚ) ⊓ (dt.card : ℚ)) ≤ 1 := by
        rw [div_le_one hminpos]
        exact hcardle
      have hseq := seqSim_bounds (normalizeText query) (normalizeText docText)
      have hm1 := mul_nonneg (by norm_num : (0 : ℚ) ≤ 65 / 100) hov0
      have hm2 := mul_nonneg (by norm_num : (0 : ℚ) ≤ 35 / 100) hseq.1
      constructor
      · linarith
      · nlinarith [hseq.1, hseq.2, hov0, hov1]
